import Mathlib

/-!
Verification of the coordinate/ring assembly and winding-order
normalization engine of libgeojson (include/libgeojson/libgeojson.h).

The library builds nlohmann::json values; here the document value type is
modelled by the inductive `geojson.Json`, and the coordinate component
type `double` by an arbitrary linearly ordered commutative ring `α`
(the engine only ever adds, subtracts, multiplies and compares
coordinates), instantiated at `ℤ` for concrete evaluations.  The
point-accessor callbacks, which in C++ write through `double&`
out-parameters, are modelled as functions returning the coordinate
tuple.  `std::domain_error` throws are modelled by `Except geojson.GeoError`;
each C++ overload pair (2D / 3D callback) becomes two definitions with
suffixes `2` and `3`.
-/

namespace geojson

/-- Minimal model of the nlohmann::json document value type: null (the
default-constructed document), numbers, strings, arrays and objects. -/
inductive Json (α : Type) where
  | null : Json α
  | num : α → Json α
  | str : String → Json α
  | arr : List (Json α) → Json α
  | obj : List (String × Json α) → Json α

/-- Model of nlohmann::json push_back: appending to a default-constructed
(null) document turns it into a one-element array; appending to an array
appends.  Other receivers throw in nlohmann and are never reached here. -/
def Json.push : Json α → Json α → Json α
  | .null, v => .arr [v]
  | .arr xs, v => .arr (xs ++ [v])
  | j, _ => j

/-- Elements of an array document (operator[] indexing is over this list). -/
def Json.getArr : Json α → List (Json α)
  | .arr xs => xs
  | _ => []

/-- Model of get<double>() on a numeric document. -/
def Json.getNum [Zero α] : Json α → α
  | .num q => q
  | _ => 0

/-- Member lookup on an object document. -/
def Json.lookup : Json α → String → Option (Json α)
  | .obj kvs, key => List.lookup key kvs
  | _, _ => none

/-- Replace-or-insert of a member into an object member list, as
nlohmann::json operator[] assignment does. -/
def setMember : List (String × Json α) → String → Json α → List (String × Json α)
  | [], key, v => [(key, v)]
  | (k, w) :: rest, key, v =>
    if k = key then (key, v) :: rest else (k, w) :: setMember rest key v

/-- Model of j[key] = v on an object (or default-constructed) document. -/
def Json.setKey : Json α → String → Json α → Json α
  | .obj kvs, key, v => .obj (setMember kvs key v)
  | .null, key, v => .obj [(key, v)]
  | j, _, _ => j

/-- Failure signal of the engine: the spec taxonomy has the single kind
InvalidGeometry, raised as std::domain_error with a message in the code. -/
inductive GeoError where
  | InvalidGeometry : String → GeoError

variable {α : Type} [LinearOrderedCommRing α]

/-- Position array, 3D overload (libgeojson.h, geojson::Position). -/
def Position3 (lon lat alt : α) : Json α :=
  .arr [.num lon, .num lat, .num alt]

/-- Position array, 2D overload (libgeojson.h, geojson::Position). -/
def Position2 (lon lat : α) : Json α :=
  .arr [.num lon, .num lat]

/-- Coordinates of a Point object, 3D overload (detail::PointCoordinates). -/
def PointCoordinates3 (lon lat alt : α) : Json α := Position3 lon lat alt

/-- Coordinates of a Point object, 2D overload (detail::PointCoordinates). -/
def PointCoordinates2 (lon lat : α) : Json α := Position2 lon lat

/-- Coordinates of a MultiPoint object, 3D callback overload
(detail::MultiPointCoordinates): starts from an explicit empty array and
pushes one position per index. -/
def MultiPointCoordinates3 (numPoints : Nat) (getPoint : Nat → α × α × α) : Json α :=
  (List.range numPoints).foldl
    (fun coords i =>
      coords.push (PointCoordinates3 (getPoint i).1 (getPoint i).2.1 (getPoint i).2.2))
    (Json.arr [])

/-- Coordinates of a MultiPoint object, 2D callback overload
(detail::MultiPointCoordinates). -/
def MultiPointCoordinates2 (numPoints : Nat) (getPoint : Nat → α × α) : Json α :=
  (List.range numPoints).foldl
    (fun coords i => coords.push (PointCoordinates2 (getPoint i).1 (getPoint i).2))
    (Json.arr [])

/-- Coordinates of a LineString object, 3D callback overload
(detail::LineStringCoordinates): throws domain_error for fewer than two
points, else assembles the positions in index order. -/
def LineStringCoordinates3 (numPoints : Nat) (getPoint : Nat → α × α × α) :
    Except GeoError (Json α) :=
  if numPoints ≤ 1 then
    .error (.InvalidGeometry "LineString objects must have at least 2 points")
  else
    .ok ((List.range numPoints).foldl
      (fun coords i =>
        coords.push (PointCoordinates3 (getPoint i).1 (getPoint i).2.1 (getPoint i).2.2))
      (Json.arr []))

/-- Coordinates of a LineString object, 2D callback overload
(detail::LineStringCoordinates). -/
def LineStringCoordinates2 (numPoints : Nat) (getPoint : Nat → α × α) :
    Except GeoError (Json α) :=
  if numPoints ≤ 1 then
    .error (.InvalidGeometry "LineString objects must have at least 2 points")
  else
    .ok ((List.range numPoints).foldl
      (fun coords i => coords.push (PointCoordinates2 (getPoint i).1 (getPoint i).2))
      (Json.arr []))

/-- Coordinates of a MultiLineString object, 3D callback overload
(detail::MultiLineStringCoordinates): starts from an explicit empty array
and pushes one LineString coordinate array per line, the point callback
bound to the line index. -/
def MultiLineStringCoordinates3 (numLines : Nat) (getLineLength : Nat → Nat)
    (getPoint : Nat → Nat → α × α × α) : Except GeoError (Json α) :=
  (List.range numLines).foldlM
    (fun coords i => do
      let line ← LineStringCoordinates3 (getLineLength i) (fun j => getPoint i j)
      pure (coords.push line))
    (Json.arr [])

/-- Coordinates of a MultiLineString object, 2D callback overload
(detail::MultiLineStringCoordinates). -/
def MultiLineStringCoordinates2 (numLines : Nat) (getLineLength : Nat → Nat)
    (getPoint : Nat → Nat → α × α) : Except GeoError (Json α) :=
  (List.range numLines).foldlM
    (fun coords i => do
      let line ← LineStringCoordinates2 (getLineLength i) (fun j => getPoint i j)
      pure (coords.push line))
    (Json.arr [])

/-- One term of the loop body of detail::IsCcw: (x2 - x1) * (y2 + y1) read
off two position arrays. -/
def cwEdgeTerm (pt1 pt2 : Json α) : α :=
  ((pt2.getArr.getD 0 .null).getNum - (pt1.getArr.getD 0 .null).getNum) *
    ((pt2.getArr.getD 1 .null).getNum + (pt1.getArr.getD 1 .null).getNum)

/-- Accumulator of detail::IsCcw: the sum of (x2 - x1)(y2 + y1) over index
pairs (i, (i+1) mod size) of the position array. -/
def cwEdgeSum (coords : Json α) : α :=
  (List.range coords.getArr.length).foldl
    (fun s i =>
      s + cwEdgeTerm (coords.getArr.getD i .null)
            (coords.getArr.getD ((i + 1) % coords.getArr.length) .null))
    0

/-- Orientation test (detail::IsCcw): the position array is judged
counter-clockwise exactly when the accumulated edge sum is negative. -/
def IsCcw (coords : Json α) : Bool := decide (cwEdgeSum coords < 0)

/-- Coordinates of a linear ring (detail::LinearRingCoordinates): throws
domain_error for fewer than three points, builds the open sequence as a
LineString, reverses it end-to-end when its orientation disagrees with the
requested one (the source reverses in place by swapping elements i and
size-1-i over the first half), and closes the ring by pushing a copy of
its (possibly reversed) first element.  3D callback overload. -/
def LinearRingCoordinates3 (numPoints : Nat) (ccw : Bool) (getPoint : Nat → α × α × α) :
    Except GeoError (Json α) :=
  if numPoints < 3 then
    .error (.InvalidGeometry "Linear rings must have at least 3 points")
  else do
    let coords ← LineStringCoordinates3 numPoints getPoint
    let isCcw := IsCcw coords
    let reverse := (isCcw && !ccw) || (!isCcw && ccw)
    let coords := if reverse then Json.arr coords.getArr.reverse else coords
    pure (coords.push (coords.getArr.getD 0 .null))

/-- Coordinates of a linear ring, 2D callback overload
(detail::LinearRingCoordinates). -/
def LinearRingCoordinates2 (numPoints : Nat) (ccw : Bool) (getPoint : Nat → α × α) :
    Except GeoError (Json α) :=
  if numPoints < 3 then
    .error (.InvalidGeometry "Linear rings must have at least 3 points")
  else do
    let coords ← LineStringCoordinates2 numPoints getPoint
    let isCcw := IsCcw coords
    let reverse := (isCcw && !ccw) || (!isCcw && ccw)
    let coords := if reverse then Json.arr coords.getArr.reverse else coords
    pure (coords.push (coords.getArr.getD 0 .null))

/-- Coordinates of a Polygon object, 3D callback overload
(detail::PolygonCoordinates): starts from a default-constructed (null)
document and pushes one closed ring per ring index i, requesting
counter-clockwise exactly for i == 0. -/
def PolygonCoordinates3 (numRings : Nat) (getRingLength : Nat → Nat)
    (getPoint : Nat → Nat → α × α × α) : Except GeoError (Json α) :=
  (List.range numRings).foldlM
    (fun coords i => do
      let ring ← LinearRingCoordinates3 (getRingLength i) (i == 0) (fun j => getPoint i j)
      pure (coords.push ring))
    Json.null

/-- Coordinates of a Polygon object, 2D callback overload
(detail::PolygonCoordinates). -/
def PolygonCoordinates2 (numRings : Nat) (getRingLength : Nat → Nat)
    (getPoint : Nat → Nat → α × α) : Except GeoError (Json α) :=
  (List.range numRings).foldlM
    (fun coords i => do
      let ring ← LinearRingCoordinates2 (getRingLength i) (i == 0) (fun j => getPoint i j)
      pure (coords.push ring))
    Json.null

/-- Coordinates of a MultiPolygon object, 3D callback overload
(detail::MultiPolygonCoordinates): starts from a default-constructed
(null) document and pushes one Polygon coordinate tree per polygon index,
the ring-length and point callbacks bound to that index. -/
def MultiPolygonCoordinates3 (numPolygons : Nat) (getNumRings : Nat → Nat)
    (getRingLength : Nat → Nat → Nat) (getPoint : Nat → Nat → Nat → α × α × α) :
    Except GeoError (Json α) :=
  (List.range numPolygons).foldlM
    (fun coords i => do
      let poly ← PolygonCoordinates3 (getNumRings i)
        (fun ring => getRingLength i ring)
        (fun ring pt => getPoint i ring pt)
      pure (coords.push poly))
    Json.null

/-- Coordinates of a MultiPolygon object, 2D callback overload
(detail::MultiPolygonCoordinates). -/
def MultiPolygonCoordinates2 (numPolygons : Nat) (getNumRings : Nat → Nat)
    (getRingLength : Nat → Nat → Nat) (getPoint : Nat → Nat → Nat → α × α) :
    Except GeoError (Json α) :=
  (List.range numPolygons).foldlM
    (fun coords i => do
      let poly ← PolygonCoordinates2 (getNumRings i)
        (fun ring => getRingLength i ring)
        (fun ring pt => getPoint i ring pt)
      pure (coords.push poly))
    Json.null

/-- GeometryCollection object (geojson::GeometryCollection): pushes each
geometry onto a default-constructed (null) document and wraps the result
with the type tag. -/
def GeometryCollection (numGeometries : Nat) (getGeometry : Nat → Json α) : Json α :=
  .obj [("type", .str "GeometryCollection"),
        ("geometries",
          (List.range numGeometries).foldl
            (fun j i => j.push (getGeometry i)) Json.null)]

/-- Feature object without an id (geojson::Feature). -/
def Feature (geometry properties : Json α) : Json α :=
  .obj [("type", .str "Feature"), ("geometry", geometry), ("properties", properties)]

/-- Feature object with a string id (geojson::Feature overload): builds the
id-less Feature and assigns its "id" member. -/
def FeatureWithStringId (id : String) (geometry properties : Json α) : Json α :=
  (Feature geometry properties).setKey "id" (.str id)

/-- Feature object with an arithmetic id (geojson::Feature overload). -/
def FeatureWithNumberId (id : α) (geometry properties : Json α) : Json α :=
  (Feature geometry properties).setKey "id" (.num id)

/-- Open position list a 3D point accessor yields in index order (the body
of the LineString / MultiPoint assembly loops). -/
def linePoints3 (numPoints : Nat) (getPoint : Nat → α × α × α) : List (Json α) :=
  (List.range numPoints).map
    (fun i => PointCoordinates3 (getPoint i).1 (getPoint i).2.1 (getPoint i).2.2)

/-- Open position list a 2D point accessor yields in index order. -/
def linePoints2 (numPoints : Nat) (getPoint : Nat → α × α) : List (Json α) :=
  (List.range numPoints).map
    (fun i => PointCoordinates2 (getPoint i).1 (getPoint i).2)

/-- Open ring sequence after the conditional reversal of the ring
normalizer: the raw open sequence when its orientation already matches the
request, its end-to-end reversal otherwise. -/
def ringPoints3 (numPoints : Nat) (ccw : Bool) (getPoint : Nat → α × α × α) :
    List (Json α) :=
  if IsCcw (Json.arr (linePoints3 numPoints getPoint)) = ccw
  then linePoints3 numPoints getPoint
  else (linePoints3 numPoints getPoint).reverse

/-- Open ring sequence after the conditional reversal, 2D overload. -/
def ringPoints2 (numPoints : Nat) (ccw : Bool) (getPoint : Nat → α × α) :
    List (Json α) :=
  if IsCcw (Json.arr (linePoints2 numPoints getPoint)) = ccw
  then linePoints2 numPoints getPoint
  else (linePoints2 numPoints getPoint).reverse

/-- Structural form of the IsCcw accumulator over the consecutive
(unwrapped) pairs of a position list. -/
def openEdgeSum : List (Json α) → α
  | [] => 0
  | [_] => 0
  | a :: b :: rest => cwEdgeTerm a b + openEdgeSum (b :: rest)

/-- Wraparound term of the IsCcw accumulator: the edge from the last
position back to the first. -/
def wrapTerm : List (Json α) → α
  | [] => 0
  | a :: t => cwEdgeTerm ((a :: t).getLast (List.cons_ne_nil a t)) a

/-- Shoelace sum exactly as the spec words it (section 4.3): accumulate
(x2 - x1) * (y2 + y1) over each consecutive pair (p1, p2) of the sequence
of (lon, lat) pairs, with wraparound from the last element back to the
first.  Stated over coordinate pairs; compared against the code's
cwEdgeSum as a refinement. -/
def specEdgeSum (l : List (α × α)) : α :=
  ((l.zip (l.rotate 1)).map (fun pq => (pq.2.1 - pq.1.1) * (pq.2.2 + pq.1.2))).sum

/-- Value carried by a successful build result (used to name the rings and
polygons a coordinate fold produces). -/
def okValue : Except GeoError (Json α) → Json α
  | .ok j => j
  | .error _ => Json.null

theorem foldl_push_arr (f : Nat → Json α) :
    ∀ (l : List Nat) (xs : List (Json α)),
      l.foldl (fun c i => c.push (f i)) (Json.arr xs) = Json.arr (xs ++ l.map f)
  | [], xs => by simp
  | a :: t, xs => by
    simpa [Json.push, List.append_assoc] using foldl_push_arr f t (xs ++ [f a])

theorem foldl_push_null (f : Nat → Json α) (n : Nat) :
    (List.range n).foldl (fun c i => c.push (f i)) Json.null =
      if n = 0 then Json.null else Json.arr ((List.range n).map f) := by
  cases n with
  | zero => simp
  | succ m =>
    rw [List.range_succ_eq_map]
    simp only [List.foldl_cons, List.map_cons]
    have h0 : (Json.null : Json α).push (f 0) = Json.arr [f 0] := rfl
    rw [h0, List.foldl_map, if_neg (Nat.succ_ne_zero m)]
    simpa [Function.comp] using
      foldl_push_arr (fun i => f (Nat.succ i)) (List.range m) [f 0]

theorem multiPoint3_eq (n : Nat) (g : Nat → α × α × α) :
    MultiPointCoordinates3 n g = Json.arr (linePoints3 n g) := by
  simpa [MultiPointCoordinates3, linePoints3] using
    foldl_push_arr (f := fun i => PointCoordinates3 (g i).1 (g i).2.1 (g i).2.2)
      (List.range n) []

theorem multiPoint2_eq (n : Nat) (g : Nat → α × α) :
    MultiPointCoordinates2 n g = Json.arr (linePoints2 n g) := by
  simpa [MultiPointCoordinates2, linePoints2] using
    foldl_push_arr (f := fun i => PointCoordinates2 (g i).1 (g i).2)
      (List.range n) []

theorem lineString3_ok (n : Nat) (g : Nat → α × α × α) (h : 2 ≤ n) :
    LineStringCoordinates3 n g = .ok (Json.arr (linePoints3 n g)) := by
  rw [LineStringCoordinates3, if_neg (by omega)]
  congr 1
  simpa [linePoints3] using
    foldl_push_arr (f := fun i => PointCoordinates3 (g i).1 (g i).2.1 (g i).2.2)
      (List.range n) []

theorem lineString2_ok (n : Nat) (g : Nat → α × α) (h : 2 ≤ n) :
    LineStringCoordinates2 n g = .ok (Json.arr (linePoints2 n g)) := by
  rw [LineStringCoordinates2, if_neg (by omega)]
  congr 1
  simpa [linePoints2] using
    foldl_push_arr (f := fun i => PointCoordinates2 (g i).1 (g i).2)
      (List.range n) []

theorem linePoints3_length (n : Nat) (g : Nat → α × α × α) :
    (linePoints3 n g).length = n := by simp [linePoints3]

theorem linePoints2_length (n : Nat) (g : Nat → α × α) :
    (linePoints2 n g).length = n := by simp [linePoints2]

theorem ringPoints3_length (n : Nat) (ccw : Bool) (g : Nat → α × α × α) :
    (ringPoints3 n ccw g).length = n := by
  unfold ringPoints3; split <;> simp [linePoints3]

theorem ringPoints2_length (n : Nat) (ccw : Bool) (g : Nat → α × α) :
    (ringPoints2 n ccw g).length = n := by
  unfold ringPoints2; split <;> simp [linePoints2]

theorem foldl_add_sum (g : Nat → α) :
    ∀ (l : List Nat) (s : α), l.foldl (fun acc i => acc + g i) s = s + (l.map g).sum
  | [], s => by simp
  | a :: t, s => by
    rw [List.foldl_cons, foldl_add_sum g t (s + g a)]
    simp [add_assoc]

theorem getD_length_getLast : ∀ (a : Json α) (t : List (Json α)),
    (a :: t).getD t.length Json.null = (a :: t).getLast (List.cons_ne_nil a t)
  | _, [] => rfl
  | a, b :: t2 => by
    rw [show (b :: t2).length = t2.length + 1 from rfl, List.getD_cons_succ,
      getD_length_getLast b t2, List.getLast_cons (List.cons_ne_nil b t2)]

theorem range_map_eq_openEdgeSum : ∀ (xs : List (Json α)),
    ((List.range (xs.length - 1)).map
      (fun i => cwEdgeTerm (xs.getD i Json.null) (xs.getD (i + 1) Json.null))).sum
      = openEdgeSum xs
  | [] => by simp [openEdgeSum]
  | [_] => by simp [openEdgeSum]
  | a :: b :: t2 => by
    have ih := range_map_eq_openEdgeSum (b :: t2)
    have hlen : (a :: b :: t2).length - 1 = t2.length + 1 := by simp
    rw [hlen, List.range_succ_eq_map]
    simp only [List.map_cons, List.sum_cons, List.map_map, Function.comp,
      List.getD_cons_succ, List.getD_cons_zero]
    rw [show openEdgeSum (a :: b :: t2) = cwEdgeTerm a b + openEdgeSum (b :: t2)
      from rfl]
    have hlen2 : (b :: t2).length - 1 = t2.length := by simp
    rw [hlen2] at ih
    rw [← ih]
    congr 1

theorem cwEdgeSum_arr (xs : List (Json α)) :
    cwEdgeSum (Json.arr xs) = openEdgeSum xs + wrapTerm xs := by
  cases xs with
  | nil => simp [cwEdgeSum, openEdgeSum, wrapTerm, Json.getArr]
  | cons a t =>
    rw [cwEdgeSum]
    simp only [Json.getArr]
    rw [foldl_add_sum, zero_add,
      show (a :: t).length = t.length + 1 from rfl, List.range_succ,
      List.map_append, List.sum_append]
    have hwrap :
        cwEdgeTerm ((a :: t).getD t.length Json.null)
          ((a :: t).getD ((t.length + 1) % (t.length + 1)) Json.null)
          = wrapTerm (a :: t) := by
      rw [Nat.mod_self, List.getD_cons_zero, getD_length_getLast]
      rfl
    simp only [List.map_cons, List.sum_cons, List.map_nil, List.sum_nil, add_zero]
    rw [hwrap]
    congr 1
    have hcongr : (List.range t.length).map
        (fun i => cwEdgeTerm ((a :: t).getD i Json.null)
          ((a :: t).getD ((i + 1) % (t.length + 1)) Json.null))
        = (List.range t.length).map
        (fun i => cwEdgeTerm ((a :: t).getD i Json.null)
          ((a :: t).getD (i + 1) Json.null)) := by
      refine List.map_congr_left (fun i hi => ?_)
      rw [Nat.mod_eq_of_lt (by simpa using List.mem_range.mp hi)]
    rw [hcongr]
    have := range_map_eq_openEdgeSum (a :: t)
    simpa using this

theorem cwEdgeTerm_swap (p q : Json α) : cwEdgeTerm q p = -cwEdgeTerm p q := by
  unfold cwEdgeTerm; ring

theorem openEdgeSum_concat : ∀ (xs : List (Json α)) (h : xs ≠ []) (a : Json α),
    openEdgeSum (xs ++ [a]) = openEdgeSum xs + cwEdgeTerm (xs.getLast h) a
  | [], h, _ => absurd rfl h
  | [x], _, a => by simp [openEdgeSum]
  | x :: y :: t, _, a => by
    have ih := openEdgeSum_concat (y :: t) (List.cons_ne_nil y t) a
    show cwEdgeTerm x y + openEdgeSum ((y :: t) ++ [a]) = _
    rw [ih, List.getLast_cons (List.cons_ne_nil y t)]
    show _ = cwEdgeTerm x y + openEdgeSum (y :: t) + _
    ring

theorem openEdgeSum_reverse : ∀ (xs : List (Json α)),
    openEdgeSum xs.reverse = -openEdgeSum xs
  | [] => by simp [openEdgeSum]
  | [_] => by simp [openEdgeSum]
  | x :: y :: t => by
    have ih := openEdgeSum_reverse (y :: t)
    rw [show (x :: y :: t).reverse = (y :: t).reverse ++ [x] from by simp,
      openEdgeSum_concat ((y :: t).reverse) (by simp) x, ih,
      List.getLast_reverse, cwEdgeTerm_swap]
    show _ = -(cwEdgeTerm x y + openEdgeSum (y :: t))
    rw [show (y :: t).head (by simp) = y from rfl]
    ring

theorem wrapTerm_eq : ∀ (xs : List (Json α)) (h : xs ≠ []),
    wrapTerm xs = cwEdgeTerm (xs.getLast h) (xs.head h)
  | [], h => absurd rfl h
  | _ :: _, _ => rfl

theorem wrapTerm_reverse (xs : List (Json α)) : wrapTerm xs.reverse = -wrapTerm xs := by
  cases xs with
  | nil => simp [wrapTerm]
  | cons a t =>
    have h1 : (a :: t).reverse ≠ [] := by simp
    rw [wrapTerm_eq _ h1, wrapTerm_eq (a :: t) (List.cons_ne_nil a t),
      List.getLast_reverse, List.head_reverse, cwEdgeTerm_swap]

theorem cwEdgeSum_reverse (xs : List (Json α)) :
    cwEdgeSum (Json.arr xs.reverse) = -cwEdgeSum (Json.arr xs) := by
  rw [cwEdgeSum_arr, cwEdgeSum_arr, openEdgeSum_reverse, wrapTerm_reverse]; ring

theorem isCcw_true_iff (c : Json α) : IsCcw c = true ↔ cwEdgeSum c < 0 := by
  simp [IsCcw]

theorem isCcw_false_iff (c : Json α) : IsCcw c = false ↔ 0 ≤ cwEdgeSum c := by
  simp [IsCcw, not_lt]

theorem linearRing3_ok (n : Nat) (ccw : Bool) (g : Nat → α × α × α) (h : 3 ≤ n) :
    LinearRingCoordinates3 n ccw g =
      .ok (Json.arr (ringPoints3 n ccw g ++ [(ringPoints3 n ccw g).getD 0 Json.null])) := by
  rw [LinearRingCoordinates3, if_neg (by omega)]
  show (LineStringCoordinates3 n g).bind _ = _
  rw [lineString3_ok n g (by omega)]
  show Except.ok _ = _
  cases hc : IsCcw (Json.arr (linePoints3 n g)) <;> cases ccw <;>
    simp [ringPoints3, hc, Json.push, Json.getArr]

theorem linearRing2_ok (n : Nat) (ccw : Bool) (g : Nat → α × α) (h : 3 ≤ n) :
    LinearRingCoordinates2 n ccw g =
      .ok (Json.arr (ringPoints2 n ccw g ++ [(ringPoints2 n ccw g).getD 0 Json.null])) := by
  rw [LinearRingCoordinates2, if_neg (by omega)]
  show (LineStringCoordinates2 n g).bind _ = _
  rw [lineString2_ok n g (by omega)]
  show Except.ok _ = _
  cases hc : IsCcw (Json.arr (linePoints2 n g)) <;> cases ccw <;>
    simp [ringPoints2, hc, Json.push, Json.getArr]

/-- C3: building a linear ring fails with the InvalidGeometry error exactly
when the point count is below 3, for every point accessor (2D or 3D) and
either requested orientation; the error is the value returned by the one
build call (modelled by the Except result), nothing else is touched. -/
theorem claim3_ring_error_iff (n : Nat) (ccw : Bool) (g2 : Nat → α × α)
    (g3 : Nat → α × α × α) :
    ((∃ m, LinearRingCoordinates2 n ccw g2 = .error (.InvalidGeometry m)) ↔ n < 3) ∧
    ((∃ m, LinearRingCoordinates3 n ccw g3 = .error (.InvalidGeometry m)) ↔ n < 3) := by
  constructor
  · constructor
    · rintro ⟨m, hm⟩
      by_contra hn
      push_neg at hn
      rw [linearRing2_ok n ccw g2 hn] at hm
      exact Except.noConfusion hm
    · intro hn
      exact ⟨_, by rw [LinearRingCoordinates2, if_pos hn]⟩
  · constructor
    · rintro ⟨m, hm⟩
      by_contra hn
      push_neg at hn
      rw [linearRing3_ok n ccw g3 hn] at hm
      exact Except.noConfusion hm
    · intro hn
      exact ⟨_, by rw [LinearRingCoordinates3, if_pos hn]⟩

theorem ring_orient (lp rp : List (Json α)) (ccw : Bool)
    (hrp : rp = if IsCcw (Json.arr lp) = ccw then lp else lp.reverse)
    (hne : cwEdgeSum (Json.arr rp) ≠ 0) :
    if ccw then cwEdgeSum (Json.arr rp) < 0 else 0 < cwEdgeSum (Json.arr rp) := by
  subst hrp
  by_cases hmatch : IsCcw (Json.arr lp) = ccw
  · rw [if_pos hmatch] at hne ⊢
    cases ccw with
    | true =>
      rw [if_pos rfl]
      exact (isCcw_true_iff _).mp hmatch
    | false =>
      rw [if_neg (by simp)]
      have h0 := (isCcw_false_iff _).mp hmatch
      exact lt_of_le_of_ne h0 (Ne.symm hne)
  · rw [if_neg hmatch] at hne ⊢
    cases ccw with
    | true =>
      rw [if_pos rfl]
      rw [cwEdgeSum_reverse] at hne ⊢
      have hcf : IsCcw (Json.arr lp) = false := by
        cases h : IsCcw (Json.arr lp) <;> simp_all
      have h0 := (isCcw_false_iff _).mp hcf
      have hne2 : cwEdgeSum (Json.arr lp) ≠ 0 := fun hz => hne (by rw [hz, neg_zero])
      have hpos := lt_of_le_of_ne h0 (Ne.symm hne2)
      linarith
    | false =>
      rw [if_neg (by simp)]
      rw [cwEdgeSum_reverse]
      have hct : IsCcw (Json.arr lp) = true := by
        cases h : IsCcw (Json.arr lp) <;> simp_all
      have hneg := (isCcw_true_iff _).mp hct
      linarith

theorem ring_props (rp lp : List (Json α)) (ccw : Bool) (n : Nat)
    (hrp : rp = if IsCcw (Json.arr lp) = ccw then lp else lp.reverse)
    (hlen : rp.length = n) (h3 : 3 ≤ n) :
    (rp ++ [rp.getD 0 Json.null]).length = n + 1 ∧
    (rp ++ [rp.getD 0 Json.null]).getD n Json.null
      = (rp ++ [rp.getD 0 Json.null]).getD 0 Json.null ∧
    ((rp ++ [rp.getD 0 Json.null]).take n = rp) ∧
    (cwEdgeSum (Json.arr rp) ≠ 0 →
      if ccw then cwEdgeSum (Json.arr rp) < 0 else 0 < cwEdgeSum (Json.arr rp)) := by
  have hpos : 0 < rp.length := by omega
  refine ⟨by simp [hlen], ?_, ?_, fun h => ring_orient lp rp ccw hrp h⟩
  · rw [show n = rp.length from hlen.symm,
      List.getD_append_right _ _ _ _ (le_refl rp.length),
      List.getD_append _ _ _ _ hpos]
    simp
  · rw [show n = rp.length from hlen.symm]
    exact List.take_left ..

/-- C1 (amended): for every count n ≥ 3 and every 2D or 3D point accessor,
the ring builder succeeds and yields a sequence of length n + 1 whose last
position equals its first; and whenever its first n elements are
non-degenerate for the shoelace test (nonzero edge sum), they evaluate
counter-clockwise (negative sum, section 4.3) for wantCcw = true and
clockwise (positive sum) for wantCcw = false.  The original claim, with no
non-degeneracy proviso, fails: see the counterexample. -/
theorem claim1_ring_shape_orientation (n : Nat) (ccw : Bool)
    (g2 : Nat → α × α) (g3 : Nat → α × α × α) (hn : 3 ≤ n) :
    (∃ r, LinearRingCoordinates2 n ccw g2 = .ok r ∧
      r.getArr.length = n + 1 ∧
      r.getArr.getD n Json.null = r.getArr.getD 0 Json.null ∧
      (cwEdgeSum (Json.arr (r.getArr.take n)) ≠ 0 →
        if ccw then cwEdgeSum (Json.arr (r.getArr.take n)) < 0
        else 0 < cwEdgeSum (Json.arr (r.getArr.take n)))) ∧
    (∃ r, LinearRingCoordinates3 n ccw g3 = .ok r ∧
      r.getArr.length = n + 1 ∧
      r.getArr.getD n Json.null = r.getArr.getD 0 Json.null ∧
      (cwEdgeSum (Json.arr (r.getArr.take n)) ≠ 0 →
        if ccw then cwEdgeSum (Json.arr (r.getArr.take n)) < 0
        else 0 < cwEdgeSum (Json.arr (r.getArr.take n)))) := by
  constructor
  · obtain ⟨h1, h2, h3t, h4⟩ := ring_props (ringPoints2 n ccw g2) (linePoints2 n g2)
      ccw n rfl (ringPoints2_length n ccw g2) hn
    refine ⟨_, linearRing2_ok n ccw g2 hn, ?_, ?_, ?_⟩
    · simpa [Json.getArr] using h1
    · simpa [Json.getArr] using h2
    · intro hne0
      simp only [Json.getArr] at hne0 ⊢
      rw [h3t] at hne0 ⊢
      exact h4 hne0
  · obtain ⟨h1, h2, h3t, h4⟩ := ring_props (ringPoints3 n ccw g3) (linePoints3 n g3)
      ccw n rfl (ringPoints3_length n ccw g3) hn
    refine ⟨_, linearRing3_ok n ccw g3 hn, ?_, ?_, ?_⟩
    · simpa [Json.getArr] using h1
    · simpa [Json.getArr] using h2
    · intro hne0
      simp only [Json.getArr] at hne0 ⊢
      rw [h3t] at hne0 ⊢
      exact h4 hne0

/-- C1 counterexample: the claim as stated quantifies over every point
accessor, but the constant accessor (all points (0,0)) with count 3 and
wantCcw = true yields a ring whose first 3 elements have edge sum 0 and
are therefore not judged counter-clockwise by the section 4.3 test. -/
theorem claim1_counterexample :
    LinearRingCoordinates2 3 true (fun _ => ((0 : ℤ), (0 : ℤ)))
      = Except.ok (Json.arr [Position2 0 0, Position2 0 0, Position2 0 0, Position2 0 0])
    ∧ IsCcw (Json.arr [Position2 (0 : ℤ) 0, Position2 0 0, Position2 0 0]) = false :=
  ⟨rfl, rfl⟩

theorem claim1_witness :
    ∃ r, LinearRingCoordinates2 4 true
        (fun i => (([0, 1, 1, 0] : List ℤ).getD i 0, ([0, 0, 1, 1] : List ℤ).getD i 0))
        = Except.ok r ∧ r.getArr.length = 4 + 1 := by
  obtain ⟨⟨r, h1, h2, _⟩, _⟩ := claim1_ring_shape_orientation 4 true
    (fun i => (([0, 1, 1, 0] : List ℤ).getD i 0, ([0, 0, 1, 1] : List ℤ).getD i 0))
    (fun _ => ((0 : ℤ), (0 : ℤ), (0 : ℤ))) (by omega)
  exact ⟨r, h1, h2⟩

/-- C5: the ring normalizer reverses exactly on orientation disagreement.
First part: when the open input sequence (as assembled in index order)
already has the requested orientation in the sense of the IsCcw test, the
output keeps the input vertex order and only appends the closing
duplicate.  Second part: when the input is clockwise (positive edge sum)
and counter-clockwise is requested, the output with the closing duplicate
removed is the input sequence reversed end-to-end.  Both parts for the 2D
and the 3D accessor shape. -/
theorem claim5_reversal_exactness (n : Nat) (g2 : Nat → α × α)
    (g3 : Nat → α × α × α) (hn : 3 ≤ n) :
    (∀ ccw, IsCcw (Json.arr (linePoints2 n g2)) = ccw →
      LinearRingCoordinates2 n ccw g2 =
        .ok (Json.arr (linePoints2 n g2 ++ [(linePoints2 n g2).getD 0 Json.null]))) ∧
    (0 < cwEdgeSum (Json.arr (linePoints2 n g2)) →
      ∃ r, LinearRingCoordinates2 n true g2 = .ok r ∧
        r.getArr.dropLast = (linePoints2 n g2).reverse) ∧
    (∀ ccw, IsCcw (Json.arr (linePoints3 n g3)) = ccw →
      LinearRingCoordinates3 n ccw g3 =
        .ok (Json.arr (linePoints3 n g3 ++ [(linePoints3 n g3).getD 0 Json.null]))) ∧
    (0 < cwEdgeSum (Json.arr (linePoints3 n g3)) →
      ∃ r, LinearRingCoordinates3 n true g3 = .ok r ∧
        r.getArr.dropLast = (linePoints3 n g3).reverse) := by
  refine ⟨fun ccw hc => ?_, fun hpos => ?_, fun ccw hc => ?_, fun hpos => ?_⟩
  · rw [linearRing2_ok n ccw g2 hn]
    rw [show ringPoints2 n ccw g2 = linePoints2 n g2 from if_pos hc]
  · have hcf : IsCcw (Json.arr (linePoints2 n g2)) = false := by
      rw [isCcw_false_iff]; linarith
    have hrp : ringPoints2 n true g2 = (linePoints2 n g2).reverse := by
      rw [ringPoints2, if_neg (by simp [hcf])]
    refine ⟨_, linearRing2_ok n true g2 hn, ?_⟩
    rw [hrp]
    show ((linePoints2 n g2).reverse ++ _).dropLast = _
    exact List.dropLast_concat ..
  · rw [linearRing3_ok n ccw g3 hn]
    rw [show ringPoints3 n ccw g3 = linePoints3 n g3 from if_pos hc]
  · have hcf : IsCcw (Json.arr (linePoints3 n g3)) = false := by
      rw [isCcw_false_iff]; linarith
    have hrp : ringPoints3 n true g3 = (linePoints3 n g3).reverse := by
      rw [ringPoints3, if_neg (by simp [hcf])]
    refine ⟨_, linearRing3_ok n true g3 hn, ?_⟩
    rw [hrp]
    show ((linePoints3 n g3).reverse ++ _).dropLast = _
    exact List.dropLast_concat ..

theorem claim5_witness :
    LinearRingCoordinates2 4 true
        (fun i => (([0, 1, 1, 0] : List ℤ).getD i 0, ([0, 0, 1, 1] : List ℤ).getD i 0))
      = Except.ok (Json.arr
          (linePoints2 4 (fun i => (([0, 1, 1, 0] : List ℤ).getD i 0,
              ([0, 0, 1, 1] : List ℤ).getD i 0))
            ++ [(linePoints2 4 (fun i => (([0, 1, 1, 0] : List ℤ).getD i 0,
              ([0, 0, 1, 1] : List ℤ).getD i 0))).getD 0 Json.null])) :=
  (claim5_reversal_exactness 4
    (fun i => (([0, 1, 1, 0] : List ℤ).getD i 0, ([0, 0, 1, 1] : List ℤ).getD i 0))
    (fun _ => ((0 : ℤ), (0 : ℤ), (0 : ℤ))) (by omega)).1 true rfl

theorem cwEdgeTerm_pos2 (x y u v : α) :
    cwEdgeTerm (Position2 x y) (Position2 u v) = (u - x) * (v + y) := rfl

theorem zip_concat_sum : ∀ (t : List (α × α)) (a c : α × α),
    ((List.zip (a :: t) (t ++ [c])).map
      (fun pq => (pq.2.1 - pq.1.1) * (pq.2.2 + pq.1.2))).sum
      = openEdgeSum ((a :: t).map (fun p => Position2 p.1 p.2))
        + (c.1 - ((a :: t).getLast (List.cons_ne_nil a t)).1)
          * (c.2 + ((a :: t).getLast (List.cons_ne_nil a t)).2)
  | [], a, c => by simp [openEdgeSum]
  | b :: t2, a, c => by
    have ih := zip_concat_sum t2 b c
    have hcons : (b :: t2) ++ [c] = b :: (t2 ++ [c]) := rfl
    rw [hcons, List.zip_cons_cons, List.map_cons, List.sum_cons, ih]
    simp only [List.map_cons, openEdgeSum, cwEdgeTerm_pos2,
      List.getLast_cons (List.cons_ne_nil b t2)]
    ring

theorem specEdgeSum_eq_cwEdgeSum (l : List (α × α)) :
    specEdgeSum l = cwEdgeSum (Json.arr (l.map (fun p => Position2 p.1 p.2))) := by
  cases l with
  | nil => simp [specEdgeSum, cwEdgeSum, Json.getArr]
  | cons a t =>
    rw [specEdgeSum, show (a :: t).rotate 1 = t ++ [a] from by
      rw [show (1 : Nat) = 0 + 1 from rfl, List.rotate_cons_succ, List.rotate_zero]]
    rw [zip_concat_sum t a a, cwEdgeSum_arr]
    congr 1
    rw [wrapTerm_eq _ (by simp)]
    rw [show ((a :: t).map (fun p => Position2 p.1 p.2)).head (by simp)
      = Position2 a.1 a.2 from rfl]
    rw [List.getLast_map]
    rw [cwEdgeTerm_pos2]

/-- C2: the orientation evaluator accumulates exactly the spec's sum of
(x2 - x1) * (y2 + y1) over consecutive pairs with implicit wraparound
(specEdgeSum): the sequence is judged counter-clockwise (evaluator true)
iff the sum is strictly negative; a strictly positive (clockwise) sum and
a degenerate zero sum both make the evaluator return false, never an
error (the evaluator is total by construction). -/
theorem claim2_shoelace_evaluator (l : List (α × α)) :
    (IsCcw (Json.arr (l.map (fun p => Position2 p.1 p.2))) = true ↔ specEdgeSum l < 0) ∧
    (0 < specEdgeSum l → IsCcw (Json.arr (l.map (fun p => Position2 p.1 p.2))) = false) ∧
    (specEdgeSum l = 0 → IsCcw (Json.arr (l.map (fun p => Position2 p.1 p.2))) = false) := by
  rw [specEdgeSum_eq_cwEdgeSum l]
  exact ⟨isCcw_true_iff _,
    fun h => (isCcw_false_iff _).mpr (le_of_lt h),
    fun h => (isCcw_false_iff _).mpr (le_of_eq h.symm)⟩

/-- C8: the unit square listed (0,0),(1,0),(1,1),(0,1) is evaluated
counter-clockwise (negative signed sum) and listed (0,0),(0,1),(1,1),(1,0)
is evaluated clockwise (positive signed sum, evaluator false). -/
theorem claim8_unit_square_examples :
    IsCcw (Json.arr [Position2 (0 : ℤ) 0, Position2 1 0, Position2 1 1, Position2 0 1])
        = true ∧
    cwEdgeSum (Json.arr [Position2 (0 : ℤ) 0, Position2 1 0, Position2 1 1, Position2 0 1])
        < 0 ∧
    IsCcw (Json.arr [Position2 (0 : ℤ) 0, Position2 0 1, Position2 1 1, Position2 1 0])
        = false ∧
    0 < cwEdgeSum (Json.arr [Position2 (0 : ℤ) 0, Position2 0 1, Position2 1 1,
        Position2 1 0]) :=
  ⟨rfl, by decide, rfl, by decide⟩

/-- C7 counterexample: a GeometryCollection built from 0 geometries holds
the default-constructed null document under "geometries", not an empty
array, so its geometry sequence is not the empty array the claim
describes. -/
theorem claim7_counterexample :
    (GeometryCollection 0 (fun _ => (Json.null : Json ℤ))).lookup "geometries"
        = some Json.null ∧
    ¬((GeometryCollection 0 (fun _ => (Json.null : Json ℤ))).lookup "geometries"
        = some (Json.arr [])) := by
  refine ⟨rfl, fun h => ?_⟩
  rw [show (GeometryCollection 0 (fun _ => (Json.null : Json ℤ))).lookup "geometries"
      = some Json.null from rfl] at h
  injection h with h2
  exact Json.noConfusion h2

/-- C7 (amended): building a GeometryCollection with count 0 succeeds (the
builder is total, no error path exists) and yields an object that holds no
geometries, but its "geometries" member is the default-constructed null
document rather than an explicit empty array. -/
theorem claim7_empty_collection (g : Nat → Json α) :
    GeometryCollection 0 g
        = Json.obj [("type", Json.str "GeometryCollection"), ("geometries", Json.null)] ∧
    (GeometryCollection 0 g).lookup "geometries" = some Json.null :=
  ⟨rfl, rfl⟩

/-- C9: a Feature without an id has no "id" member; with a string id or a
numeric id the "id" member holds that value; in all three cases the
"type", "geometry" and "properties" members coincide with those of the
id-less Feature. -/
theorem claim9_feature_id (geometry properties : Json α) (s : String) (q : α) :
    (Feature geometry properties).lookup "id" = none ∧
    (FeatureWithStringId s geometry properties).lookup "id" = some (Json.str s) ∧
    (FeatureWithNumberId q geometry properties).lookup "id" = some (Json.num q) ∧
    (FeatureWithStringId s geometry properties).lookup "type"
      = (Feature geometry properties).lookup "type" ∧
    (FeatureWithStringId s geometry properties).lookup "geometry"
      = (Feature geometry properties).lookup "geometry" ∧
    (FeatureWithStringId s geometry properties).lookup "properties"
      = (Feature geometry properties).lookup "properties" ∧
    (FeatureWithNumberId q geometry properties).lookup "type"
      = (Feature geometry properties).lookup "type" ∧
    (FeatureWithNumberId q geometry properties).lookup "geometry"
      = (Feature geometry properties).lookup "geometry" ∧
    (FeatureWithNumberId q geometry properties).lookup "properties"
      = (Feature geometry properties).lookup "properties" :=
  ⟨rfl, rfl, rfl, rfl, rfl, rfl, rfl, rfl, rfl⟩

/-- C10: a Polygon build with 0 rings and a MultiPolygon build with 0
polygons succeed but return the default-constructed null document as
coordinates, while MultiPoint and LineString builds always return an
explicit array (empty for a 0-point MultiPoint). -/
theorem claim10_zero_count_null (rl : Nat → Nat) (gp2 : Nat → Nat → α × α)
    (gp3 : Nat → Nat → α × α × α) (nr : Nat → Nat) (mrl : Nat → Nat → Nat)
    (mgp2 : Nat → Nat → Nat → α × α) (mgp3 : Nat → Nat → Nat → α × α × α)
    (n m : Nat) (g2 : Nat → α × α) (g3 : Nat → α × α × α) :
    PolygonCoordinates2 0 rl gp2 = .ok Json.null ∧
    PolygonCoordinates3 0 rl gp3 = .ok Json.null ∧
    MultiPolygonCoordinates2 0 nr mrl mgp2 = .ok Json.null ∧
    MultiPolygonCoordinates3 0 nr mrl mgp3 = .ok Json.null ∧
    MultiPointCoordinates2 0 g2 = Json.arr [] ∧
    MultiPointCoordinates3 0 g3 = Json.arr [] ∧
    (∃ xs, MultiPointCoordinates2 n g2 = Json.arr xs) ∧
    (∃ xs, MultiPointCoordinates3 n g3 = Json.arr xs) ∧
    (∀ j, LineStringCoordinates2 m g2 = .ok j → ∃ xs, j = Json.arr xs) ∧
    (∀ j, LineStringCoordinates3 m g3 = .ok j → ∃ xs, j = Json.arr xs) := by
  refine ⟨rfl, rfl, rfl, rfl, rfl, rfl,
    ⟨_, multiPoint2_eq n g2⟩, ⟨_, multiPoint3_eq n g3⟩, ?_, ?_⟩
  · intro j hj
    by_cases hm : m ≤ 1
    · rw [LineStringCoordinates2, if_pos hm] at hj
      exact Except.noConfusion hj
    · rw [lineString2_ok m g2 (by omega)] at hj
      injection hj with h
      exact ⟨_, h.symm⟩
  · intro j hj
    by_cases hm : m ≤ 1
    · rw [LineStringCoordinates3, if_pos hm] at hj
      exact Except.noConfusion hj
    · rw [lineString3_ok m g3 (by omega)] at hj
      injection hj with h
      exact ⟨_, h.symm⟩

theorem foldlM_push_ok (f : Nat → Except GeoError (Json α)) (v : Nat → Json α) :
    ∀ (l : List Nat) (init : Json α), (∀ i ∈ l, f i = .ok (v i)) →
      l.foldlM (fun c i => do let r ← f i; pure (c.push r)) init
        = .ok (l.foldl (fun c i => c.push (v i)) init)
  | [], _, _ => rfl
  | a :: t, init, h => by
    rw [List.foldlM_cons, h a (List.mem_cons_self a t)]
    show t.foldlM _ (init.push (v a)) = _
    exact foldlM_push_ok f v t (init.push (v a))
      (fun i hi => h i (List.mem_cons_of_mem a hi))

theorem foldlM_push_ok_iff (f : Nat → Except GeoError (Json α)) :
    ∀ (l : List Nat) (init : Json α),
      (∃ j, l.foldlM (fun c i => do let r ← f i; pure (c.push r)) init = .ok j)
        ↔ ∀ i ∈ l, ∃ r, f i = .ok r
  | [], init => by
    constructor
    · intro _ i hi
      exact absurd hi (List.not_mem_nil i)
    · intro _
      exact ⟨init, rfl⟩
  | a :: t, init => by
    rw [List.foldlM_cons]
    cases hfa : f a with
    | error e =>
      show (∃ j, (Except.error e : Except GeoError (Json α)) = .ok j) ↔ _
      constructor
      · rintro ⟨j, hj⟩
        exact Except.noConfusion hj
      · intro h
        obtain ⟨r, hr⟩ := h a (List.mem_cons_self a t)
        rw [hfa] at hr
        exact Except.noConfusion hr
    | ok r =>
      show (∃ j, t.foldlM (fun c i => do
          let r2 ← f i
          pure (c.push r2)) (init.push r) = .ok j) ↔ _
      rw [foldlM_push_ok_iff f t (init.push r)]
      constructor
      · intro h i hi
        rcases List.mem_cons.mp hi with h1 | h2
        · exact ⟨r, by rw [h1]; exact hfa⟩
        · exact h i h2
      · intro h i hi
        exact h i (List.mem_cons_of_mem a hi)

theorem lineString2_ok_iff (n : Nat) (g : Nat → α × α) :
    (∃ j, LineStringCoordinates2 n g = .ok j) ↔ 2 ≤ n := by
  constructor
  · rintro ⟨j, hj⟩
    by_contra hn
    rw [LineStringCoordinates2, if_pos (by omega)] at hj
    exact Except.noConfusion hj
  · intro hn
    exact ⟨_, lineString2_ok n g hn⟩

theorem lineString3_ok_iff (n : Nat) (g : Nat → α × α × α) :
    (∃ j, LineStringCoordinates3 n g = .ok j) ↔ 2 ≤ n := by
  constructor
  · rintro ⟨j, hj⟩
    by_contra hn
    rw [LineStringCoordinates3, if_pos (by omega)] at hj
    exact Except.noConfusion hj
  · intro hn
    exact ⟨_, lineString3_ok n g hn⟩

theorem geo_error_iff (x : Except GeoError (Json α)) :
    (∃ m, x = .error (.InvalidGeometry m)) ↔ ¬∃ j, x = .ok j := by
  cases x with
  | ok j =>
    constructor
    · rintro ⟨m, h⟩
      exact Except.noConfusion h
    · intro h
      exact absurd ⟨j, rfl⟩ h
  | error e =>
    cases e with
    | InvalidGeometry m =>
      constructor
      · rintro ⟨m2, _⟩ ⟨j, hj⟩
        exact Except.noConfusion hj
      · intro _
        exact ⟨m, rfl⟩

theorem multiLine2_ok_iff (numLines : Nat) (len : Nat → Nat) (g : Nat → Nat → α × α) :
    (∃ j, MultiLineStringCoordinates2 numLines len g = .ok j)
      ↔ ∀ i < numLines, 2 ≤ len i := by
  have hiff := foldlM_push_ok_iff
    (fun i => LineStringCoordinates2 (len i) (fun j => g i j))
    (List.range numLines) (Json.arr [])
  constructor
  · intro hj i hi
    exact (lineString2_ok_iff _ _).mp (hiff.mp hj i (List.mem_range.mpr hi))
  · intro h
    exact hiff.mpr
      (fun i hi => (lineString2_ok_iff _ _).mpr (h i (List.mem_range.mp hi)))

theorem multiLine3_ok_iff (numLines : Nat) (len : Nat → Nat) (g : Nat → Nat → α × α × α) :
    (∃ j, MultiLineStringCoordinates3 numLines len g = .ok j)
      ↔ ∀ i < numLines, 2 ≤ len i := by
  have hiff := foldlM_push_ok_iff
    (fun i => LineStringCoordinates3 (len i) (fun j => g i j))
    (List.range numLines) (Json.arr [])
  constructor
  · intro hj i hi
    exact (lineString3_ok_iff _ _).mp (hiff.mp hj i (List.mem_range.mpr hi))
  · intro h
    exact hiff.mpr
      (fun i hi => (lineString3_ok_iff _ _).mpr (h i (List.mem_range.mp hi)))

/-- C4: a LineString coordinate build (and each line of a MultiLineString
build) fails with InvalidGeometry exactly for point counts 0 and 1 and
succeeds for 2 or more, for both accessor shapes; a MultiPoint build has
no minimum: it is total by construction and count 0 yields the explicit
empty array. -/
theorem claim4_line_minimums (n numLines : Nat) (g2 : Nat → α × α)
    (g3 : Nat → α × α × α) (len : Nat → Nat) (mg2 : Nat → Nat → α × α)
    (mg3 : Nat → Nat → α × α × α) :
    ((∃ m, LineStringCoordinates2 n g2 = .error (.InvalidGeometry m)) ↔ n < 2) ∧
    ((∃ m, LineStringCoordinates3 n g3 = .error (.InvalidGeometry m)) ↔ n < 2) ∧
    ((∃ m, MultiLineStringCoordinates2 numLines len mg2 = .error (.InvalidGeometry m))
      ↔ ∃ i < numLines, len i < 2) ∧
    ((∃ m, MultiLineStringCoordinates3 numLines len mg3 = .error (.InvalidGeometry m))
      ↔ ∃ i < numLines, len i < 2) ∧
    MultiPointCoordinates2 0 g2 = Json.arr [] ∧
    MultiPointCoordinates3 0 g3 = Json.arr [] := by
  refine ⟨?_, ?_, ?_, ?_, rfl, rfl⟩
  · rw [geo_error_iff, lineString2_ok_iff]
    omega
  · rw [geo_error_iff, lineString3_ok_iff]
    omega
  · rw [geo_error_iff, multiLine2_ok_iff]
    constructor
    · intro h
      by_contra h2
      push_neg at h2
      exact h (fun i hi => by have := h2 i hi; omega)
    · rintro ⟨i, hi, hl⟩ hall
      have := hall i hi
      omega
  · rw [geo_error_iff, multiLine3_ok_iff]
    constructor
    · intro h
      by_contra h2
      push_neg at h2
      exact h (fun i hi => by have := h2 i hi; omega)
    · rintro ⟨i, hi, hl⟩ hall
      have := hall i hi
      omega

theorem getD_map_range (v : Nat → Json α) (n i : Nat) (hi : i < n) :
    ((List.range n).map v).getD i Json.null = v i := by
  rw [List.getD_eq_getElem _ _ (by simpa using hi)]
  simp

theorem polygon3_ok (n : Nat) (rl : Nat → Nat) (gp : Nat → Nat → α × α × α)
    (h : ∀ i < n, 3 ≤ rl i) :
    PolygonCoordinates3 n rl gp = .ok (if n = 0 then Json.null else
      Json.arr ((List.range n).map
        (fun i => okValue (LinearRingCoordinates3 (rl i) (i == 0) (fun j => gp i j))))) := by
  have hv : ∀ i ∈ List.range n,
      LinearRingCoordinates3 (rl i) (i == 0) (fun j => gp i j)
        = .ok (okValue (LinearRingCoordinates3 (rl i) (i == 0) (fun j => gp i j))) := by
    intro i hi
    rw [linearRing3_ok _ _ _ (h i (List.mem_range.mp hi))]
    rfl
  have hfold := foldlM_push_ok
    (fun i => LinearRingCoordinates3 (rl i) (i == 0) (fun j => gp i j))
    (fun i => okValue (LinearRingCoordinates3 (rl i) (i == 0) (fun j => gp i j)))
    (List.range n) Json.null hv
  rw [foldl_push_null] at hfold
  exact hfold

theorem polygon2_ok (n : Nat) (rl : Nat → Nat) (gp : Nat → Nat → α × α)
    (h : ∀ i < n, 3 ≤ rl i) :
    PolygonCoordinates2 n rl gp = .ok (if n = 0 then Json.null else
      Json.arr ((List.range n).map
        (fun i => okValue (LinearRingCoordinates2 (rl i) (i == 0) (fun j => gp i j))))) := by
  have hv : ∀ i ∈ List.range n,
      LinearRingCoordinates2 (rl i) (i == 0) (fun j => gp i j)
        = .ok (okValue (LinearRingCoordinates2 (rl i) (i == 0) (fun j => gp i j))) := by
    intro i hi
    rw [linearRing2_ok _ _ _ (h i (List.mem_range.mp hi))]
    rfl
  have hfold := foldlM_push_ok
    (fun i => LinearRingCoordinates2 (rl i) (i == 0) (fun j => gp i j))
    (fun i => okValue (LinearRingCoordinates2 (rl i) (i == 0) (fun j => gp i j)))
    (List.range n) Json.null hv
  rw [foldl_push_null] at hfold
  exact hfold

theorem multiPolygon3_ok (numPolys : Nat) (nr : Nat → Nat) (mrl : Nat → Nat → Nat)
    (mgp : Nat → Nat → Nat → α × α × α) (h : ∀ i < numPolys, ∀ j < nr i, 3 ≤ mrl i j) :
    MultiPolygonCoordinates3 numPolys nr mrl mgp = .ok (if numPolys = 0 then Json.null else
      Json.arr ((List.range numPolys).map
        (fun i => okValue (PolygonCoordinates3 (nr i) (fun r => mrl i r)
          (fun r p => mgp i r p))))) := by
  have hv : ∀ i ∈ List.range numPolys,
      PolygonCoordinates3 (nr i) (fun r => mrl i r) (fun r p => mgp i r p)
        = .ok (okValue (PolygonCoordinates3 (nr i) (fun r => mrl i r)
            (fun r p => mgp i r p))) := by
    intro i hi
    rw [polygon3_ok _ _ _ (fun r hr => h i (List.mem_range.mp hi) r hr)]
    rfl
  have hfold := foldlM_push_ok
    (fun i => PolygonCoordinates3 (nr i) (fun r => mrl i r) (fun r p => mgp i r p))
    (fun i => okValue (PolygonCoordinates3 (nr i) (fun r => mrl i r) (fun r p => mgp i r p)))
    (List.range numPolys) Json.null hv
  rw [foldl_push_null] at hfold
  exact hfold

theorem multiPolygon2_ok (numPolys : Nat) (nr : Nat → Nat) (mrl : Nat → Nat → Nat)
    (mgp : Nat → Nat → Nat → α × α) (h : ∀ i < numPolys, ∀ j < nr i, 3 ≤ mrl i j) :
    MultiPolygonCoordinates2 numPolys nr mrl mgp = .ok (if numPolys = 0 then Json.null else
      Json.arr ((List.range numPolys).map
        (fun i => okValue (PolygonCoordinates2 (nr i) (fun r => mrl i r)
          (fun r p => mgp i r p))))) := by
  have hv : ∀ i ∈ List.range numPolys,
      PolygonCoordinates2 (nr i) (fun r => mrl i r) (fun r p => mgp i r p)
        = .ok (okValue (PolygonCoordinates2 (nr i) (fun r => mrl i r)
            (fun r p => mgp i r p))) := by
    intro i hi
    rw [polygon2_ok _ _ _ (fun r hr => h i (List.mem_range.mp hi) r hr)]
    rfl
  have hfold := foldlM_push_ok
    (fun i => PolygonCoordinates2 (nr i) (fun r => mrl i r) (fun r p => mgp i r p))
    (fun i => okValue (PolygonCoordinates2 (nr i) (fun r => mrl i r) (fun r p => mgp i r p)))
    (List.range numPolys) Json.null hv
  rw [foldl_push_null] at hfold
  exact hfold

theorem polygon3_props (n : Nat) (rl : Nat → Nat) (gp : Nat → Nat → α × α × α)
    (hP : ∀ i < n, 3 ≤ rl i) :
    ∃ c, PolygonCoordinates3 n rl gp = .ok c ∧ c.getArr.length = n ∧
      ∀ i < n, LinearRingCoordinates3 (rl i) (i == 0) (fun j => gp i j)
        = .ok (c.getArr.getD i Json.null) := by
  refine ⟨_, polygon3_ok n rl gp hP, ?_, ?_⟩
  · by_cases h0 : n = 0 <;> simp [h0, Json.getArr]
  · intro i hi
    rw [if_neg (by omega)]
    simp only [Json.getArr]
    rw [getD_map_range _ _ _ hi]
    rw [linearRing3_ok _ _ _ (hP i hi)]
    rfl

theorem polygon2_props (n : Nat) (rl : Nat → Nat) (gp : Nat → Nat → α × α)
    (hP : ∀ i < n, 3 ≤ rl i) :
    ∃ c, PolygonCoordinates2 n rl gp = .ok c ∧ c.getArr.length = n ∧
      ∀ i < n, LinearRingCoordinates2 (rl i) (i == 0) (fun j => gp i j)
        = .ok (c.getArr.getD i Json.null) := by
  refine ⟨_, polygon2_ok n rl gp hP, ?_, ?_⟩
  · by_cases h0 : n = 0 <;> simp [h0, Json.getArr]
  · intro i hi
    rw [if_neg (by omega)]
    simp only [Json.getArr]
    rw [getD_map_range _ _ _ hi]
    rw [linearRing2_ok _ _ _ (hP i hi)]
    rfl

theorem multiPolygon3_props (numPolys : Nat) (nr : Nat → Nat) (mrl : Nat → Nat → Nat)
    (mgp : Nat → Nat → Nat → α × α × α) (hM : ∀ i < numPolys, ∀ j < nr i, 3 ≤ mrl i j) :
    ∃ c, MultiPolygonCoordinates3 numPolys nr mrl mgp = .ok c ∧
      c.getArr.length = numPolys ∧
      (∀ i < numPolys, (c.getArr.getD i Json.null).getArr.length = nr i) ∧
      ∀ i < numPolys, ∀ j < nr i,
        LinearRingCoordinates3 (mrl i j) (j == 0) (fun k => mgp i j k)
          = .ok ((c.getArr.getD i Json.null).getArr.getD j Json.null) := by
  refine ⟨_, multiPolygon3_ok numPolys nr mrl mgp hM, ?_, ?_, ?_⟩
  · by_cases h0 : numPolys = 0 <;> simp [h0, Json.getArr]
  · intro i hi
    rw [if_neg (by omega)]
    simp only [Json.getArr]
    rw [getD_map_range _ _ _ hi]
    rw [polygon3_ok _ _ _ (fun r hr => hM i hi r hr)]
    by_cases h1 : nr i = 0 <;> simp [h1, okValue, Json.getArr]
  · intro i hi j hj
    rw [if_neg (by omega)]
    simp only [Json.getArr]
    rw [getD_map_range _ _ _ hi]
    rw [polygon3_ok _ _ _ (fun r hr => hM i hi r hr)]
    simp only [okValue]
    rw [if_neg (by omega)]
    simp only [Json.getArr]
    rw [getD_map_range _ _ _ hj]
    rw [linearRing3_ok _ _ _ (hM i hi j hj)]

theorem multiPolygon2_props (numPolys : Nat) (nr : Nat → Nat) (mrl : Nat → Nat → Nat)
    (mgp : Nat → Nat → Nat → α × α) (hM : ∀ i < numPolys, ∀ j < nr i, 3 ≤ mrl i j) :
    ∃ c, MultiPolygonCoordinates2 numPolys nr mrl mgp = .ok c ∧
      c.getArr.length = numPolys ∧
      (∀ i < numPolys, (c.getArr.getD i Json.null).getArr.length = nr i) ∧
      ∀ i < numPolys, ∀ j < nr i,
        LinearRingCoordinates2 (mrl i j) (j == 0) (fun k => mgp i j k)
          = .ok ((c.getArr.getD i Json.null).getArr.getD j Json.null) := by
  refine ⟨_, multiPolygon2_ok numPolys nr mrl mgp hM, ?_, ?_, ?_⟩
  · by_cases h0 : numPolys = 0 <;> simp [h0, Json.getArr]
  · intro i hi
    rw [if_neg (by omega)]
    simp only [Json.getArr]
    rw [getD_map_range _ _ _ hi]
    rw [polygon2_ok _ _ _ (fun r hr => hM i hi r hr)]
    by_cases h1 : nr i = 0 <;> simp [h1, okValue, Json.getArr]
  · intro i hi j hj
    rw [if_neg (by omega)]
    simp only [Json.getArr]
    rw [getD_map_range _ _ _ hi]
    rw [polygon2_ok _ _ _ (fun r hr => hM i hi r hr)]
    simp only [okValue]
    rw [if_neg (by omega)]
    simp only [Json.getArr]
    rw [getD_map_range _ _ _ hj]
    rw [linearRing2_ok _ _ _ (hM i hi j hj)]

/-- C6: each ring i of a Polygon build is exactly the closed ring the ring
normalizer produces for the declared point count with wantCcw = (i == 0)
(exterior counter-clockwise, holes clockwise); a MultiPolygon build
produces one polygon per index, each polygon holding exactly its declared
ring count (so the total ring count is the sum of the declared counts),
and polygon i's ring j is the normalizer's ring with wantCcw = (j == 0).
Both accessor shapes; ring point counts must be at least 3 to build. -/
theorem claim6_polygon_ring_roles (numRings : Nat) (rl : Nat → Nat)
    (gp2 : Nat → Nat → α × α) (gp3 : Nat → Nat → α × α × α)
    (numPolys : Nat) (nr : Nat → Nat) (mrl : Nat → Nat → Nat)
    (mgp2 : Nat → Nat → Nat → α × α) (mgp3 : Nat → Nat → Nat → α × α × α)
    (hP : ∀ i < numRings, 3 ≤ rl i)
    (hM : ∀ i < numPolys, ∀ j < nr i, 3 ≤ mrl i j) :
    (∃ c, PolygonCoordinates2 numRings rl gp2 = .ok c ∧ c.getArr.length = numRings ∧
      ∀ i < numRings, LinearRingCoordinates2 (rl i) (i == 0) (fun j => gp2 i j)
        = .ok (c.getArr.getD i Json.null)) ∧
    (∃ c, PolygonCoordinates3 numRings rl gp3 = .ok c ∧ c.getArr.length = numRings ∧
      ∀ i < numRings, LinearRingCoordinates3 (rl i) (i == 0) (fun j => gp3 i j)
        = .ok (c.getArr.getD i Json.null)) ∧
    (∃ c, MultiPolygonCoordinates2 numPolys nr mrl mgp2 = .ok c ∧
      c.getArr.length = numPolys ∧
      ((List.range numPolys).map
        (fun i => (c.getArr.getD i Json.null).getArr.length)).sum
        = ((List.range numPolys).map nr).sum ∧
      ∀ i < numPolys, ∀ j < nr i,
        LinearRingCoordinates2 (mrl i j) (j == 0) (fun k => mgp2 i j k)
          = .ok ((c.getArr.getD i Json.null).getArr.getD j Json.null)) ∧
    (∃ c, MultiPolygonCoordinates3 numPolys nr mrl mgp3 = .ok c ∧
      c.getArr.length = numPolys ∧
      ((List.range numPolys).map
        (fun i => (c.getArr.getD i Json.null).getArr.length)).sum
        = ((List.range numPolys).map nr).sum ∧
      ∀ i < numPolys, ∀ j < nr i,
        LinearRingCoordinates3 (mrl i j) (j == 0) (fun k => mgp3 i j k)
          = .ok ((c.getArr.getD i Json.null).getArr.getD j Json.null)) := by
  refine ⟨polygon2_props numRings rl gp2 hP, polygon3_props numRings rl gp3 hP, ?_, ?_⟩
  · obtain ⟨c, h1, h2, h3, h4⟩ := multiPolygon2_props numPolys nr mrl mgp2 hM
    refine ⟨c, h1, h2, ?_, h4⟩
    rw [List.map_congr_left (fun i hi => h3 i (List.mem_range.mp hi))]
  · obtain ⟨c, h1, h2, h3, h4⟩ := multiPolygon3_props numPolys nr mrl mgp3 hM
    refine ⟨c, h1, h2, ?_, h4⟩
    rw [List.map_congr_left (fun i hi => h3 i (List.mem_range.mp hi))]

theorem claim6_witness :
    ∃ c, PolygonCoordinates3 1 (fun _ => 3)
        (fun _ j => (([0, 1, 0] : List ℤ).getD j 0, ([0, 0, 1] : List ℤ).getD j 0, (0 : ℤ)))
        = Except.ok c ∧ c.getArr.length = 1 := by
  obtain ⟨_, ⟨c, h1, h2, _⟩, _, _⟩ := claim6_polygon_ring_roles 1 (fun _ => 3)
    (fun _ j => (([0, 1, 0] : List ℤ).getD j 0, ([0, 0, 1] : List ℤ).getD j 0))
    (fun _ j => (([0, 1, 0] : List ℤ).getD j 0, ([0, 0, 1] : List ℤ).getD j 0, (0 : ℤ)))
    1 (fun _ => 1) (fun _ _ => 3)
    (fun _ _ k => (([0, 1, 0] : List ℤ).getD k 0, ([0, 0, 1] : List ℤ).getD k 0))
    (fun _ _ k => (([0, 1, 0] : List ℤ).getD k 0, ([0, 0, 1] : List ℤ).getD k 0, (0 : ℤ)))
    (fun _ _ => le_refl 3) (fun _ _ _ _ => le_refl 3)
  exact ⟨c, h1, h2⟩

end geojson
